import Mathlib

/-!
Verification development for the chat/agent session subsystem of the Aide IDE.

The definitions below are a shallow embedding of the TypeScript sources:
  * `src/vs/workbench/contrib/aideAgent/common/aideAgentModel.ts`
    (ChatModel, ChatRequestModel, ChatResponseModel, Response,
     canMergeMarkdownStrings, appendMarkdownString, serialization), and
  * `extensions/codestory/src/devtools/react/types.ts`
    (AideAgentSessionProvider.reportAgentEventsToChat and its
     response-stream collection).

Stateful code is embedded as explicit state passing; thrown exceptions are
embedded with `Except`; JavaScript `undefined` is embedded with `Option`.
-/

namespace Aide

/-! ## Markdown strings (base/common/htmlContent.ts, shallowly)

`IMarkdownString` carries a text value plus rendering attributes.  `isTrusted`
is `boolean | MarkdownStringTrustedOptions | undefined`; `equals` from
base/common/objects.js is deep structural equality, which is embedded as
decidable equality on the corresponding inductive type. -/

structure UriComponents where
  scheme : String := ""
  authority : String := ""
  path : String := ""
  query : String := ""
  fragment : String := ""
deriving DecidableEq, Repr

inductive MarkdownTrust
  | flag (b : Bool)
  | enabledCommands (cs : List String)
deriving DecidableEq, Repr

structure MarkdownString where
  value : String := ""
  isTrusted : Option MarkdownTrust := none
  supportThemeIcons : Option Bool := none
  supportHtml : Option Bool := none
  baseUri : Option UriComponents := none
deriving DecidableEq, Repr

/-- `canMergeMarkdownStrings` (aideAgentModel.ts): the baseUris must both be
absent, or both present and componentwise equal; then isTrusted (deep
equality), supportHtml and supportThemeIcons must agree. -/
def canMergeMarkdownStrings (md1 md2 : MarkdownString) : Bool :=
  let baseUriOk : Bool :=
    match md1.baseUri, md2.baseUri with
    | some b1, some b2 =>
      decide (b1.scheme = b2.scheme) && decide (b1.authority = b2.authority) &&
      decide (b1.path = b2.path) && decide (b1.query = b2.query) &&
      decide (b1.fragment = b2.fragment)
    | none, none => true
    | _, _ => false
  baseUriOk && decide (md1.isTrusted = md2.isTrusted) &&
    decide (md1.supportHtml = md2.supportHtml) &&
    decide (md1.supportThemeIcons = md2.supportThemeIcons)

/-- `appendMarkdownString` (aideAgentModel.ts): concatenates the text and keeps
the first string's attributes. -/
def appendMarkdownString (md1 md2 : MarkdownString) : MarkdownString :=
  { value := md1.value ++ md2.value
    isTrusted := md1.isTrusted
    supportThemeIcons := md1.supportThemeIcons
    supportHtml := md1.supportHtml
    baseUri := md1.baseUri }

/-! ## Response content parts

`IChatProgressResponseContent` is a tagged union; payloads that no claim
inspects are embedded with representative fields.  A text edit
(`TextEdit` from editor/common/languages) is a range plus replacement text. -/

structure TextEdit where
  startLine : Nat := 0
  startColumn : Nat := 0
  endLine : Nat := 0
  endColumn : Nat := 0
  text : String := ""
deriving DecidableEq, Repr

structure TextEditGroupState where
  sha1 : String
  applied : Nat
deriving DecidableEq, Repr

inductive ResponsePart
  | markdownContent (content : MarkdownString)
  | treeData (tree : String)
  | inlineReference (name : String)
  | progressMessage (content : MarkdownString)
  | command (title : String)
  | warning (content : MarkdownString)
  | progressTask (content : MarkdownString) (settled : Bool)
  | textEditGroup (uri : UriComponents) (edits : List (List TextEdit))
      (state : Option TextEditGroupState) (done : Option Bool)
  | confirmation (title : String) (message : String)
  | toolTypeError (message : String)
  | planStep (description : MarkdownString)
  | stagePart (message : String)
deriving DecidableEq, Repr

/-- The argument union of `Response.updateContent`:
`IChatProgressResponseContent | IChatTextEdit | IChatTask`. -/
inductive ResponseProgress
  | markdownContent (content : MarkdownString)
  | textEdit (uri : UriComponents) (edits : List TextEdit) (done : Option Bool)
  | progressTask (content : MarkdownString)
  | treeData (tree : String)
  | inlineReference (name : String)
  | progressMessage (content : MarkdownString)
  | command (title : String)
  | warning (content : MarkdownString)
  | confirmation (title : String) (message : String)
  | toolTypeError (message : String)
  | planStep (description : MarkdownString)
  | stagePart (message : String)
deriving DecidableEq, Repr

/-- The loop condition of the `textEdit` branch of `Response.updateContent`:
`candidate.kind === 'textEditGroup' && isEqual(candidate.uri, progress.uri)`
(`isEqual` on uris is embedded as componentwise equality). -/
def isGroupFor (p : ResponsePart) (u : UriComponents) : Bool :=
  match p with
  | .textEditGroup uri _ _ _ => decide (uri = u)
  | _ => false

/-- The in-place mutation on a found candidate group:
`candidate.edits.push(progress.edits); candidate.done = progress.done`. -/
def pushBatch (p : ResponsePart) (edits : List TextEdit) (done : Option Bool) :
    ResponsePart :=
  match p with
  | .textEditGroup u es st _ => .textEditGroup u (es ++ [edits]) st done
  | other => other

/-- The `textEdit` branch of `Response.updateContent`: scan the parts for the
first `textEditGroup` with the same uri, append the batch there and overwrite
`done`; when no candidate matches, push a fresh group at the end. -/
def mergeTextEdits : List ResponsePart → UriComponents → List TextEdit →
    Option Bool → List ResponsePart
  | [], uri, edits, done => [.textEditGroup uri [edits] none done]
  | p :: ps, uri, edits, done =>
    if isGroupFor p uri then pushBatch p edits done :: ps
    else p :: mergeTextEdits ps uri edits done

/-- `Response.updateContent` (aideAgentModel.ts), acting on the parts list.
Markdown merges into the last part when possible; non-empty text edits are
bucketed per uri; a task is pushed as a pending placeholder (its async
resolution is outside the model); everything else is appended verbatim.
The derived `_responseRepr`/`_markdownContent` recomputation does not change
the parts list and is omitted. -/
def updateContent (parts : List ResponsePart) (progress : ResponseProgress) :
    List ResponsePart :=
  match progress with
  | .markdownContent content =>
    match parts.getLast? with
    | some (.markdownContent lastContent) =>
      if canMergeMarkdownStrings lastContent content then
        parts.dropLast ++ [.markdownContent (appendMarkdownString lastContent content)]
      else
        parts ++ [.markdownContent content]
    | _ => parts ++ [.markdownContent content]
  | .textEdit uri edits done =>
    if edits.length > 0 then mergeTextEdits parts uri edits done else parts
  | .progressTask content => parts ++ [.progressTask content false]
  | .treeData t => parts ++ [.treeData t]
  | .inlineReference n => parts ++ [.inlineReference n]
  | .progressMessage c => parts ++ [.progressMessage c]
  | .command t => parts ++ [.command t]
  | .warning c => parts ++ [.warning c]
  | .confirmation t msg => parts ++ [.confirmation t msg]
  | .toolTypeError msg => parts ++ [.toolTypeError msg]
  | .planStep d => parts ++ [.planStep d]
  | .stagePart msg => parts ++ [.stagePart msg]

/-- The attribute agreement the specification describes for markdown merging:
isTrusted, supportHtml, supportThemeIcons and baseUri pairwise equal. -/
def markdownAttrsEqual (md1 md2 : MarkdownString) : Prop :=
  md1.isTrusted = md2.isTrusted ∧ md1.supportHtml = md2.supportHtml ∧
    md1.supportThemeIcons = md2.supportThemeIcons ∧ md1.baseUri = md2.baseUri

instance (md1 md2 : MarkdownString) : Decidable (markdownAttrsEqual md1 md2) := by
  unfold markdownAttrsEqual; infer_instance

/-- One `textEdit` progress fragment (`IChatTextEdit`): target uri, edit
batch, and the optional `done` flag. -/
structure TextEditFragment where
  uri : UriComponents
  edits : List TextEdit
  done : Option Bool
deriving DecidableEq, Repr

/-- A sequence of `updateContent` calls, one per text-edit fragment in
arrival order. -/
def applyTextEditFragments (parts : List ResponsePart)
    (frags : List TextEditFragment) : List ResponsePart :=
  frags.foldl (fun ps f => updateContent ps (.textEdit f.uri f.edits f.done)) parts

/-- The fragments addressed to uri `u`, in arrival order. -/
def fragsFor (u : UriComponents) (frags : List TextEditFragment) :
    List TextEditFragment :=
  frags.filter (fun f => decide (f.uri = u))

/-- The `done` flag of the last fragment addressed to `u`. -/
def doneFor (u : UriComponents) (frags : List TextEditFragment) : Option Bool :=
  match (fragsFor u frags).getLast? with
  | some f => f.done
  | none => none

/-- The text-edit-group part the specification predicts for uri `u`: the
batches of exactly the fragments addressed to `u`, in arrival order, with
the last fragment's `done` flag. -/
def groupFor (frags : List TextEditFragment) (u : UriComponents) :
    ResponsePart :=
  .textEditGroup u ((fragsFor u frags).map TextEditFragment.edits) none
    (doneFor u frags)

def firstUrisAux (seen : List UriComponents) :
    List TextEditFragment → List UriComponents
  | [] => []
  | f :: fs =>
    if f.uri ∈ seen then firstUrisAux seen fs
    else f.uri :: firstUrisAux (f.uri :: seen) fs

/-- The distinct uris of a fragment list, in order of first occurrence. -/
def firstUris (frags : List TextEditFragment) : List UriComponents :=
  firstUrisAux [] frags

/-- The parts list the specification predicts for a pure text-edit stream:
one group per distinct uri, in first-occurrence order. -/
def bucketParts (frags : List TextEditFragment) : List ResponsePart :=
  (firstUris frags).map (groupFor frags)

/-! ## Chat model data (aideAgentModel.ts)

`ChatRequestModel` / `ChatResponseModel` fields are embedded with the
payload detail the claims and the serializer touch; identifiers are the
`request_N` / `response_N` strings the static counters produce, with the
counters carried in the model state. -/

structure ParsedChatRequest where
  text : String
  parts : List String := []
deriving DecidableEq, Repr

structure VariableEntry where
  id : String := ""
  name : String := ""
  value : String := ""
deriving DecidableEq, Repr

/-- `IChatRequestVariableData`; the source field `variables` is a reserved
word in Lean and is embedded as `vars`. -/
structure VariableData where
  vars : List VariableEntry := []
deriving DecidableEq, Repr

structure ErrorDetails where
  message : String := ""
  responseIsRedacted : Option Bool := none
deriving DecidableEq, Repr

structure ChatAgentResult where
  errorDetails : Option ErrorDetails := none
deriving DecidableEq, Repr

/-- Serialized agent data; `hasMetadata` records whether the persisted entry
carries the new-format `metadata` key that `_deserialize` checks for. -/
structure AgentData where
  id : String := ""
  hasMetadata : Bool := true
deriving DecidableEq, Repr

inductive VoteDirection
  | up
  | down
deriving DecidableEq, Repr

structure ChatRequestModel where
  id : String
  message : ParsedChatRequest
  variableData : VariableData
  attempt : Nat := 0
  confirmation : Option String := none
  locationData : Option String := none
  attachedContext : Option (List VariableEntry) := none
  isCompleteAddedRequest : Bool := false
  shouldBeRemovedOnSend : Bool := false
deriving DecidableEq, Repr

structure ChatResponseModel where
  id : String
  parts : List ResponsePart := []
  isComplete : Bool := false
  isCanceled : Bool := false
  vote : Option VoteDirection := none
  voteDownReason : Option String := none
  result : Option ChatAgentResult := none
  followups : Option (List String) := none
  agent : Option AgentData := none
  slashCommand : Option String := none
  usedContext : Option String := none
  contentReferences : List String := []
  codeCitations : List String := []
  isCompleteAddedRequest : Bool := false
  shouldBeRemovedOnSend : Bool := false
  isStale : Bool := false
deriving DecidableEq, Repr

inductive ChatExchangeModel
  | request (r : ChatRequestModel)
  | response (r : ChatResponseModel)
deriving DecidableEq, Repr

def exchangeId : ChatExchangeModel → String
  | .request r => r.id
  | .response r => r.id

def exchangeShouldBeRemovedOnSend : ChatExchangeModel → Bool
  | .request r => r.shouldBeRemovedOnSend
  | .response r => r.shouldBeRemovedOnSend

def setShouldBeRemovedOnSend : ChatExchangeModel → Bool → ChatExchangeModel
  | .request r, b => .request { r with shouldBeRemovedOnSend := b }
  | .response r, b => .response { r with shouldBeRemovedOnSend := b }

inductive ChatExchangeRemovalReason
  | removal
  | resend
deriving DecidableEq, Repr

/-- `IChatChangeEvent`s fired on the model's `_onDidChange` emitter. -/
inductive ChatChangeEvent
  | initializeEvent
  | addRequest (request : ChatRequestModel)
  | addResponse (responseId : String)
  | changedRequest (requestId : String)
  | removeExchange (exchangeId : String) (reason : ChatExchangeRemovalReason)
  | setHidden (hiddenRequestIds : List String)
  | setAgent (agentId : String)
  | moveEvent (target : UriComponents)
  | startPlan
deriving DecidableEq, Repr

/-- The `ChatModel` state the claims observe: the exchange list, the
`CONTEXT_CHAT_LAST_EXCHANGE_COMPLETE` context key, the log of fired change
events, the static id counters, the last-message date and the ids of
disposed responses. -/
structure ChatModelState where
  exchanges : List ChatExchangeModel := []
  lastExchangeComplete : Bool := false
  events : List ChatChangeEvent := []
  nextRequestId : Nat := 0
  nextResponseId : Nat := 0
  lastMessageDate : Nat := 0
  disposed : List String := []
deriving DecidableEq, Repr

def mkRequestId (n : Nat) : String := "request_" ++ toString n

def mkResponseId (n : Nat) : String := "response_" ++ toString n

/-- The `ChatResponseModel` built by `addRequest`: constructor arguments
`([], this, chatAgent, slashCommand)` with everything else defaulted
(`isCompleteAddedRequest` passed through); an empty initial value is not
stale. -/
def emptyResponseModel (id : String) (agent : Option AgentData)
    (slashCommand : Option String) (isCompleteAddedRequest : Bool) :
    ChatResponseModel :=
  { id, agent, slashCommand, isCompleteAddedRequest }

/-- `ChatModel.addRequest`: appends a fresh request and an empty response,
updates the last-message date (`Date.now()` is passed in as `now`), clears the
last-exchange-complete context key and fires one `addRequest` event.
`autoAcceptLastExchange` is a no-op in the source. -/
def addRequest (m : ChatModelState) (message : ParsedChatRequest)
    (variableData : VariableData) (attempt : Nat) (chatAgent : Option AgentData)
    (slashCommand : Option String) (confirmation : Option String)
    (locationData : Option String) (attachments : Option (List VariableEntry))
    (isCompleteAddedRequest : Bool) (now : Nat) :
    ChatModelState × ChatRequestModel :=
  let request : ChatRequestModel :=
    { id := mkRequestId m.nextRequestId, message, variableData, attempt,
      confirmation, locationData, attachedContext := attachments,
      isCompleteAddedRequest }
  let response :=
    emptyResponseModel (mkResponseId m.nextResponseId) chatAgent slashCommand
      isCompleteAddedRequest
  ({ m with
      exchanges := m.exchanges ++ [.request request, .response response]
      nextRequestId := m.nextRequestId + 1
      nextResponseId := m.nextResponseId + 1
      lastMessageDate := now
      lastExchangeComplete := false
      events := m.events ++ [.addRequest request] },
   request)

/-- `ChatModel.disableRequests`: every exchange's `shouldBeRemovedOnSend` is
set to whether its id is in the batch, then a single `setHidden` event fires. -/
def disableRequests (m : ChatModelState) (requestIds : List String) :
    ChatModelState :=
  { m with
      exchanges :=
        m.exchanges.map (fun e =>
          setShouldBeRemovedOnSend e (decide (exchangeId e ∈ requestIds)))
      events := m.events ++ [.setHidden requestIds] }

/-- `ChatModel.removeExchange`: `findIndex` by id; when absent the guarded
block is skipped entirely; when present, the `removeExchange` event fires
(with the found exchange's id), the exchange is spliced out, and it is
disposed only when it is a response. -/
def removeExchange (m : ChatModelState) (id : String)
    (reason : ChatExchangeRemovalReason) : ChatModelState :=
  match m.exchanges.findIdx? (fun e => decide (exchangeId e = id)) with
  | none => m
  | some index =>
    match m.exchanges[index]? with
    | none => m
    | some exchange =>
      { m with
          events := m.events ++ [.removeExchange (exchangeId exchange) reason]
          exchanges := m.exchanges.eraseIdx index
          disposed := m.disposed ++
            (match exchange with
              | .response r => [r.id]
              | .request _ => []) }

/-- Whether `this._result?.errorDetails?.responseIsRedacted` is truthy. -/
def responseIsRedactedFlag (r : ChatResponseModel) : Bool :=
  ((r.result.bind ChatAgentResult.errorDetails).bind
    ErrorDetails.responseIsRedacted).getD false

/-- `ChatResponseModel.complete`: clears the content when the result carries
the redacted-error flag, then marks the response complete. -/
def ChatResponseModel.complete (r : ChatResponseModel) : ChatResponseModel :=
  let r := if responseIsRedactedFlag r then { r with parts := [] } else r
  { r with isComplete := true }

/-- `ChatModel.completeResponse`: completes the response and sets the
last-exchange-complete context key to true. -/
def completeResponse (m : ChatModelState) (r : ChatResponseModel) :
    ChatModelState × ChatResponseModel :=
  ({ m with lastExchangeComplete := true }, r.complete)

/-! ## Serialization (`toExport` / `toJSON` / `_deserialize`)

A persisted response body is an array whose elements are bare markdown
strings, bare tree data, or tagged parts passed through unchanged
(`item as any`).  A persisted exchange is a record whose `type` field is the
discriminator string. -/

inductive SerializedResponsePart
  | markdown (content : MarkdownString)
  | treeData (tree : String)
  | other (p : ResponsePart)
deriving DecidableEq, Repr

/-- The per-part mapping in `ChatModel.toExport`: tree data and markdown are
flattened to their bare payload for backward compatibility, everything else
is kept as is. -/
def serializeResponsePart : ResponsePart → SerializedResponsePart
  | .treeData t => .treeData t
  | .markdownContent c => .markdown c
  | p => .other p

/-- The mapping done by the `Response` constructor on persisted values:
markdown strings become markdown parts, values with a `kind` are kept, the
rest is treated as tree data. -/
def reviveResponsePart : SerializedResponsePart → ResponsePart
  | .markdown c => .markdownContent c
  | .other p => p
  | .treeData t => .treeData t

/-- `ISerializableExchange` with the legacy fields `_deserialize` tolerates:
`message` may be a bare string (old format), `variableData` may be missing,
`responseErrorDetails` is the pre-`result` shape.  `type` is kept as a raw
string so unrecognized discriminators are representable. -/
structure RawExchange where
  type : String
  message : Option (String ⊕ ParsedChatRequest) := none
  variableData : Option VariableData := none
  isHidden : Bool := false
  response : Option (List SerializedResponsePart) := none
  result : Option ChatAgentResult := none
  responseErrorDetails : Option ErrorDetails := none
  agent : Option AgentData := none
  slashCommand : Option String := none
  followups : Option (List String) := none
  isCanceled : Option Bool := none
  vote : Option VoteDirection := none
  voteDownReason : Option String := none
  usedContext : Option String := none
  contentReferences : Option (List String) := none
  codeCitations : Option (List String) := none
deriving DecidableEq, Repr

/-- The per-exchange mapping in `ChatModel.toExport`. -/
def toExportExchange : ChatExchangeModel → RawExchange
  | .request r =>
    { type := "request"
      message := some (Sum.inr r.message)
      variableData := some r.variableData
      isHidden := r.shouldBeRemovedOnSend }
  | .response r =>
    { type := "response"
      response := some (r.parts.map serializeResponsePart)
      result := r.result
      followups := r.followups
      isCanceled := some r.isCanceled
      vote := r.vote
      voteDownReason := r.voteDownReason
      agent := r.agent
      slashCommand := r.slashCommand
      usedContext := r.usedContext
      contentReferences := some r.contentReferences
      codeCitations := some r.codeCitations
      isHidden := r.shouldBeRemovedOnSend }

def toExportExchanges (exchanges : List ChatExchangeModel) : List RawExchange :=
  exchanges.map toExportExchange

/-- The `ChatResponseModel` rebuilt by the `raw.type === 'response'` branch of
`_deserialize`: content from `raw.response` (or one markdown part with empty
text when the field is absent), `isComplete` forced to true, defaults applied
for missing `isCanceled`, the legacy `responseErrorDetails` ported into a
result, and old-format agents (without `metadata`) ignored.  The
`response_N` counter suffix of the fresh id is not modelled. -/
def reviveResponse (raw : RawExchange) : ChatResponseModel :=
  { id := "response_"
    parts :=
      match raw.response with
      | some ps => ps.map reviveResponsePart
      | none => [.markdownContent { value := "" }]
    isComplete := true
    isCanceled := raw.isCanceled.getD false
    vote := raw.vote
    voteDownReason := raw.voteDownReason
    result :=
      if raw.responseErrorDetails.isSome then
        some { errorDetails := raw.responseErrorDetails }
      else raw.result
    followups := raw.followups
    agent := raw.agent.bind (fun a => if a.hasMetadata then some a else none)
    slashCommand := raw.slashCommand
    usedContext := raw.usedContext
    contentReferences := raw.contentReferences.getD []
    codeCitations := raw.codeCitations.getD []
    shouldBeRemovedOnSend := raw.isHidden
    isStale :=
      match raw.response with
      | some ps => !ps.isEmpty
      | none => true }

/-- One step of the `exchanges.map` callback inside `_deserialize`.  In the
source, the `raw.type === 'request'` branch constructs the `ChatRequestModel`
and sets its hidden flag but never returns it, so control falls through to
the trailing throw and the constructed request is discarded; that fall-through
is embedded as the error this branch produces. -/
def deserializeExchange (raw : RawExchange) : Except String ChatExchangeModel :=
  if raw.type = "request" then
    Except.error ("Unknown exchange")
  else if raw.type = "response" then
    if raw.response.isSome || raw.result.isSome ||
        raw.responseErrorDetails.isSome then
      Except.ok (.response (reviveResponse raw))
    else
      Except.error ("Unknown response")
  else
    Except.error ("Unknown exchange")

/-- `Array.prototype.map` under a surrounding try/catch: elements are mapped
in order and the first thrown error aborts the whole map. -/
def mapOrFail : List RawExchange → Except String (List ChatExchangeModel)
  | [] => Except.ok []
  | r :: rs =>
    match deserializeExchange r with
    | .error e => .error e
    | .ok x =>
      match mapOrFail rs with
      | .error e => .error e
      | .ok xs => .ok (x :: xs)

/-- `ChatModel._deserialize`: a non-array exchange list (embedded as `none`)
is logged and treated as empty; otherwise the exchanges are mapped inside a
try/catch whose catch arm logs and returns the empty list. -/
def deserializeExchanges (exchanges : Option (List RawExchange)) :
    List ChatExchangeModel :=
  match exchanges with
  | none => []
  | some list =>
    match mapOrFail list with
    | .ok parsed => parsed
    | .error _ => []

/-! ## Agent event dispatcher
(`AideAgentSessionProvider.reportAgentEventsToChat`, types.ts)

The response-stream collection is a map keyed by the string
`sessionId + "-" + exchangeId`; each stored stream also carries its own
`exchangeId` field, which the terminal fan-out loop reads.  Stream calls
(`stage`, `markdown`, `reference`, ...) are recorded as an output log. -/

def mkStreamKey (sessionId exchangeId : String) : String :=
  sessionId ++ "-" ++ exchangeId

structure StreamEntry where
  sessionId : String
  exchangeId : String
deriving DecidableEq, Repr

def StreamEntry.key (e : StreamEntry) : String :=
  mkStreamKey e.sessionId e.exchangeId

inductive OutputKind
  | stageOut (message : String)
  | markdown (text : String)
  | reference (path : String)
  | toolTypeError (message : String)
  | step (index : Nat) (description : String)
  | closeStream
deriving DecidableEq, Repr

structure StreamOutput where
  sessionId : String
  exchangeId : String
  out : OutputKind
deriving DecidableEq, Repr

structure ProviderState where
  responseStreams : List StreamEntry := []
  startedStreams : List String := []
  lastThinkingText : List (String × String) := []
  outputs : List StreamOutput := []
deriving DecidableEq, Repr

/-- `AideResponseStreamCollection.getResponseStream` (map lookup by key). -/
def lookupStream (coll : List StreamEntry) (sessionId exchangeId : String) :
    Option StreamEntry :=
  coll.find? (fun e => decide (e.key = mkStreamKey sessionId exchangeId))

/-- `AideResponseStreamCollection.removeResponseStream` (map delete by key). -/
def removeStream (coll : List StreamEntry) (sessionId exchangeId : String) :
    List StreamEntry :=
  coll.filter (fun e => decide (e.key ≠ mkStreamKey sessionId exchangeId))

def emit (s : ProviderState) (sessionId exchangeId : String)
    (k : OutputKind) : ProviderState :=
  { s with outputs := s.outputs ++ [⟨sessionId, exchangeId, k⟩] }

/-- `closeAndRemoveResponseStream`: close the stream when one is open under
the key, delete the collection entry, and release the thinking-text entry. -/
def closeAndRemoveResponseStream (s : ProviderState)
    (sessionId exchangeId : String) : ProviderState :=
  let s :=
    match lookupStream s.responseStreams sessionId exchangeId with
    | some e => emit s e.sessionId e.exchangeId .closeStream
    | none => s
  { s with
      responseStreams := removeStream s.responseStreams sessionId exchangeId
      lastThinkingText :=
        s.lastThinkingText.filter
          (fun p => decide (p.1 ≠ mkStreamKey sessionId exchangeId)) }

/-- The session-wide terminal fan-out: snapshot all open streams
(`getAllResponseStreams`) and close-and-remove each under the event's
session id paired with the stream's own exchange id. -/
def fanoutClose (s : ProviderState) (sessionId : String) : ProviderState :=
  let openStreams := s.responseStreams
  openStreams.foldl
    (fun acc streamEntry =>
      closeAndRemoveResponseStream acc sessionId streamEntry.exchangeId) s

inductive ToolUseKindTag
  | attemptCompletion
  | openFileTool (fsFilePath : String)
  | otherTool
deriving DecidableEq, Repr

inductive FrameworkEventKind
  | openFile (fsFilePath : String)
  | toolThinking (thinking : String)
  | toolParameterFound (fieldName : String) (fieldContentDelta : String)
  | toolUseDetected (toolUsePartialInput : Option ToolUseKindTag)
  | toolTypeError (errorString : String)
deriving DecidableEq, Repr

inductive SymbolSubStepKind
  | goToDefinition
  | editStep (hasIdentifier : Bool) (thinkingForEditDelta : String)
  | probe
deriving DecidableEq, Repr

inductive ExchangeEventKind
  | plansExchangeState (editsState : String)
  | editsExchangeState (editsState : String)
  | executionState (state : String)
  | finishedExchange
deriving DecidableEq, Repr

inductive UIEventKind
  | frameworkEvent (fe : FrameworkEventKind)
  | symbolEvent
  | symbolEventSubStep (sub : SymbolSubStepKind)
  | requestEvent
  | editRequestFinished
  | chatEvent (delta : Option String)
  | planEvent (planStepTitleAdded : Option (Nat × String))
      (planStepDescriptionUpdate : Option (Nat × String))
  | exchangeEvent (ee : ExchangeEventKind)
deriving DecidableEq, Repr

/-- An element of the sidecar event stream: keep-alive and started sentinels,
the terminal `done` sentinel, or a payload event keyed by
(`request_id`, `exchange_id`). -/
inductive SideCarAgentEvent
  | keepAlive
  | sessionStarted
  | doneSentinel
  | main (requestId : String) (exchangeId : String) (ev : UIEventKind)
deriving DecidableEq, Repr

def setThinking (s : ProviderState) (key text : String) : ProviderState :=
  { s with
      lastThinkingText :=
        (s.lastThinkingText.filter (fun p => decide (p.1 ≠ key))) ++
          [(key, text)] }

def getThinking (s : ProviderState) (key : String) : String :=
  ((s.lastThinkingText.find? (fun p => decide (p.1 = key))).map Prod.snd).getD ""

/-- The event-kind dispatch of `reportAgentEventsToChat`, entered after the
stream lookup succeeded and the one-time Loading transition ran.  The
returned flag is whether the branch executed `return` (ending the whole
loop). -/
def handleUIEvent (s : ProviderState) (sessionId exchangeId : String)
    (ev : UIEventKind) : ProviderState × Bool :=
  match ev with
  | .frameworkEvent fe =>
    match fe with
    | .openFile fsFilePath =>
      (if fsFilePath ≠ "" then
        emit s sessionId exchangeId (.reference fsFilePath)
      else s, false)
    | .toolThinking thinking =>
      let key := mkStreamKey sessionId exchangeId
      let lastText := getThinking s key
      let delta := thinking.drop lastText.length
      let s :=
        if delta ≠ "" then
          emit s sessionId exchangeId (.markdown (delta ++ "\n"))
        else s
      (setThinking s key thinking, false)
    | .toolParameterFound fieldName delta =>
      if fieldName = "fs_file_path" ∨ fieldName = "directory_path" then
        (emit s sessionId exchangeId (.reference delta), false)
      else if fieldName = "instruction" ∨ fieldName = "result" ∨
          fieldName = "question" then
        (emit s sessionId exchangeId (.markdown (delta ++ "\n")), false)
      else if fieldName = "command" then
        (emit s sessionId exchangeId
          (.markdown ("Running command: `" ++ delta ++ "`\n")), false)
      else if fieldName = "regex_pattern" then
        (emit s sessionId exchangeId
          (.markdown ("\nSearching the codebase: `" ++ delta ++ "`\n")), false)
      else if fieldName = "file_pattern" then
        (emit s sessionId exchangeId
          (.markdown ("\nLooking for files: `" ++ delta ++ "`\n")), false)
      else (s, false)
    | .toolUseDetected toolUsePartialInput =>
      match toolUsePartialInput with
      | some .attemptCompletion =>
        let s := emit s sessionId exchangeId (.stageOut "Complete")
        (fanoutClose s sessionId, true)
      | some (.openFileTool fsFilePath) =>
        (if fsFilePath ≠ "" then
          emit s sessionId exchangeId (.reference fsFilePath)
        else s, false)
      | some .otherTool => (s, false)
      | none => (s, false)
    | .toolTypeError errorString =>
      let s := emit s sessionId exchangeId (.toolTypeError errorString)
      let s := emit s sessionId exchangeId (.stageOut "Error")
      (fanoutClose s sessionId, true)
  | .symbolEvent => (s, false)
  | .symbolEventSubStep sub =>
    match sub with
    | .goToDefinition => (s, false)
    | .editStep hasIdentifier thinkingForEditDelta =>
      if hasIdentifier then
        (if thinkingForEditDelta ≠ "" then
          emit s sessionId exchangeId (.markdown thinkingForEditDelta)
        else s, false)
      else (s, false)
    | .probe => (s, false)
  | .requestEvent => (s, false)
  | .editRequestFinished => (s, false)
  | .chatEvent delta =>
    (match delta with
      | some d => emit s sessionId exchangeId (.markdown d)
      | none => s, false)
  | .planEvent planStepTitleAdded planStepDescriptionUpdate =>
    let s :=
      match planStepTitleAdded with
      | some (index, title) =>
        emit (emit s sessionId exchangeId (.stageOut "Planning"))
          sessionId exchangeId (.step index ("### " ++ title))
      | none => s
    let s :=
      match planStepDescriptionUpdate with
      | some (index, delta) =>
        emit s sessionId exchangeId (.step index ("\n" ++ delta))
      | none => s
    (s, false)
  | .exchangeEvent ee =>
    match ee with
    | .plansExchangeState editsState =>
      if editsState = "Loading" then
        (emit s sessionId exchangeId (.stageOut "Planning"), false)
      else if editsState = "Cancelled" then
        (emit s sessionId exchangeId (.stageOut "Cancelled"), false)
      else if editsState = "MarkedComplete" then
        let s := emit s sessionId exchangeId (.stageOut "Complete")
        (closeAndRemoveResponseStream s sessionId exchangeId, true)
      else if editsState = "Accepted" then
        (emit s sessionId exchangeId (.stageOut "Accepted"), false)
      else (s, false)
    | .editsExchangeState editsState =>
      if editsState = "Loading" then
        (emit s sessionId exchangeId (.stageOut "Editing"), false)
      else if editsState = "Cancelled" then
        (emit s sessionId exchangeId (.stageOut "Cancelled"), false)
      else if editsState = "MarkedComplete" then
        let s := emit s sessionId exchangeId (.stageOut "Complete")
        (closeAndRemoveResponseStream s sessionId exchangeId, true)
      else (s, false)
    | .executionState state =>
      if state = "Inference" then
        (emit s sessionId exchangeId (.stageOut "Reasoning"), false)
      else if state = "InReview" then
        (emit s sessionId exchangeId (.stageOut "Review"), false)
      else if state = "Cancelled" then
        (emit s sessionId exchangeId (.stageOut "Cancelled"), false)
      else (s, false)
    | .finishedExchange =>
      let s := emit s sessionId exchangeId (.stageOut "Complete")
      (closeAndRemoveResponseStream s sessionId exchangeId, false)

/-- The once-per-pair `stage: Loading` transition guarded by the
`startedStreams` seen-set. -/
def loadingStep (s : ProviderState) (sessionId exchangeId : String) :
    ProviderState :=
  let key := mkStreamKey sessionId exchangeId
  if key ∈ s.startedStreams then s
  else
    let s := emit s sessionId exchangeId (.stageOut "Loading...")
    { s with startedStreams := s.startedStreams ++ [key] }

/-- One iteration of the `for await` loop: sentinels are skipped; an event
whose (session, exchange) pair has no open stream is dropped; otherwise the
one-time Loading transition runs before the event-kind dispatch. -/
def processOneEvent (s : ProviderState) (e : SideCarAgentEvent) :
    ProviderState × Bool :=
  match e with
  | .keepAlive => (s, false)
  | .sessionStarted => (s, false)
  | .doneSentinel => (s, false)
  | .main requestId eventExchangeId ev =>
    match lookupStream s.responseStreams requestId eventExchangeId with
    | none => (s, false)
    | some _ =>
      handleUIEvent (loadingStep s requestId eventExchangeId)
        requestId eventExchangeId ev

/-- `reportAgentEventsToChat` over a finite prefix of the event stream; a
branch that executed `return` stops consuming. -/
def reportAgentEventsToChat (s : ProviderState) :
    List SideCarAgentEvent → ProviderState
  | [] => s
  | e :: es =>
    let r := processOneEvent s e
    if r.2 then r.1 else reportAgentEventsToChat r.1 es

/-- How many `stage: Loading` transitions were emitted on the
(`sid`, `eid`) response stream. -/
def countLoading (sid eid : String) (outs : List StreamOutput) : Nat :=
  (outs.filter (fun o => decide (o.sessionId = sid ∧ o.exchangeId = eid ∧
      o.out = .stageOut "Loading..."))).length

/-- The at-most-once invariant for the Loading transition of one
(session, exchange) pair: it was emitted at most once, and if it was emitted
the pair's key is in the `startedStreams` seen-set. -/
def LoadingInv (sid eid : String) (s : ProviderState) : Prop :=
  countLoading sid eid s.outputs ≤ 1 ∧
  (countLoading sid eid s.outputs = 1 → mkStreamKey sid eid ∈ s.startedStreams)

/-! ## Concrete instances used by witnesses and counterexamples -/

def c4md1 : MarkdownString := { value := "Let me look" }

def c4md2 : MarkdownString := { value := " at this." }

def c6redacted : ChatResponseModel :=
  { id := "response_7"
    parts := [.markdownContent { value := "secret" }]
    result := some { errorDetails := some { responseIsRedacted := some true } } }

def c6plain : ChatResponseModel :=
  { id := "response_8"
    parts := [.markdownContent { value := "visible" }] }

def c9req0raw : ChatRequestModel :=
  { id := "request_0"
    message := { text := "first" }
    variableData := {}
    shouldBeRemovedOnSend := true }

def c9req1raw : ChatRequestModel :=
  { id := "request_1"
    message := { text := "second" }
    variableData := {} }

def c9m : ChatModelState :=
  { exchanges := [.request c9req0raw, .request c9req1raw] }

def c9req0 : ChatExchangeModel := .request c9req0raw

def c10req : ChatRequestModel :=
  { id := "request_4"
    message := { text := "hello" }
    variableData := {} }

def c10m : ChatModelState :=
  { exchanges := [.request c10req, .response { id := "response_5" }] }

def c10resp : ChatExchangeModel := .response { id := "response_5" }

def c1uri : UriComponents := { scheme := "file", path := "/foo.ts" }

def c1edit : TextEdit := { text := "fixed" }

def c1request : ChatRequestModel :=
  { id := "request_0"
    message := { text := "Fix the bug in foo.ts" }
    variableData := {} }

/-- Response content for the round-trip scenario: two merged markdown
fragments and one text-edit group, accumulated through `updateContent`. -/
def c1parts : List ResponsePart :=
  updateContent
    (updateContent
      (updateContent [] (.markdownContent { value := "Let me look" }))
      (.markdownContent { value := " at this." }))
    (.textEdit c1uri [c1edit] (some true))

def c1completeResponse : ChatResponseModel :=
  { id := "response_0", parts := c1parts, isComplete := true }

def c1canceledResponse : ChatResponseModel :=
  { id := "response_1", isComplete := true, isCanceled := true }

/-- The session of the round-trip claim: one request, one complete response
with two merged markdown parts and one text-edit group, one canceled
response. -/
def c1exchanges : List ChatExchangeModel :=
  [.request c1request,
    .response c1completeResponse,
    .response c1canceledResponse]

def c2goodResponse : ChatResponseModel :=
  { id := "response_9"
    parts := [.markdownContent { value := "ok" }]
    isComplete := true }

/-- A perfectly well-formed persisted response exchange. -/
def c2goodRaw : RawExchange := toExportExchange (.response c2goodResponse)

/-- A persisted exchange of unrecognized shape: its discriminator is neither
a request nor a response. -/
def c2unknownRaw : RawExchange := { type := "mystery" }

/-- One open response stream whose pair has not started yet. -/
def c8state : ProviderState :=
  { responseStreams := [{ sessionId := "s", exchangeId := "e1" }] }

/-- Two consecutive chat-delta events for the same pair. -/
def c8events : List SideCarAgentEvent :=
  [.main "s" "e1" (.chatEvent (some "hi")),
    .main "s" "e1" (.chatEvent (some " there"))]

/-- Three concurrently open response streams in one session. -/
def c3state : ProviderState :=
  { responseStreams :=
      [{ sessionId := "s", exchangeId := "e1" },
        { sessionId := "s", exchangeId := "e2" },
        { sessionId := "s", exchangeId := "e3" }]
    startedStreams := ["s-e1", "s-e2", "s-e3"] }

/-- A single terminal `FinishedExchange` event for the first stream. -/
def c3event : SideCarAgentEvent :=
  .main "s" "e1" (.exchangeEvent .finishedExchange)

def c5uriA : UriComponents := { scheme := "file", path := "/a.ts" }

def c5uriB : UriComponents := { scheme := "file", path := "/b.ts" }

def c5frags : List TextEditFragment :=
  [{ uri := c5uriA, edits := [{ text := "one" }], done := none },
    { uri := c5uriB, edits := [{ text := "two" }], done := some false },
    { uri := c5uriA, edits := [{ text := "three" }], done := some true }]

/-! ## Supporting lemmas -/

theorem canMergeMarkdownStrings_iff (md1 md2 : MarkdownString) :
    canMergeMarkdownStrings md1 md2 = true ↔ markdownAttrsEqual md1 md2 := by
  unfold canMergeMarkdownStrings markdownAttrsEqual
  rcases h1 : md1.baseUri with _ | b1 <;> rcases h2 : md2.baseUri with _ | b2
  · simp [h1, h2]
    tauto
  · simp [h1, h2]
  · simp [h1, h2]
  · cases b1
    cases b2
    simp [h1, h2, UriComponents.mk.injEq]
    tauto

theorem updateContent_markdown_push (parts : List ResponsePart)
    (md : MarkdownString)
    (h : ∀ c, parts.getLast? ≠ some (.markdownContent c)) :
    updateContent parts (.markdownContent md) = parts ++ [.markdownContent md] := by
  unfold updateContent
  rcases hp : parts.getLast? with _ | p
  · rfl
  · cases p <;> first
      | rfl
      | exact absurd hp (h _)

theorem updateContent_markdown_merge (parts : List ResponsePart)
    (lastC md : MarkdownString)
    (hgl : parts.getLast? = some (.markdownContent lastC))
    (hm : canMergeMarkdownStrings lastC md = true) :
    updateContent parts (.markdownContent md) =
      parts.dropLast ++ [.markdownContent (appendMarkdownString lastC md)] := by
  unfold updateContent
  rw [hgl]
  simp [hm]

theorem updateContent_markdown_nomerge (parts : List ResponsePart)
    (lastC md : MarkdownString)
    (hgl : parts.getLast? = some (.markdownContent lastC))
    (hm : canMergeMarkdownStrings lastC md = false) :
    updateContent parts (.markdownContent md) = parts ++ [.markdownContent md] := by
  unfold updateContent
  rw [hgl]
  simp [hm]

theorem mergeTextEdits_not_found (ps : List ResponsePart) (u : UriComponents)
    (e : List TextEdit) (d : Option Bool)
    (h : ∀ p ∈ ps, isGroupFor p u = false) :
    mergeTextEdits ps u e d = ps ++ [.textEditGroup u [e] none d] := by
  induction ps with
  | nil => rfl
  | cons p ps ih =>
    have hp := h p (List.mem_cons_self p ps)
    have hrest : ∀ q ∈ ps, isGroupFor q u = false :=
      fun q hq => h q (List.mem_cons_of_mem _ hq)
    simp [mergeTextEdits, hp, ih hrest]

theorem mergeTextEdits_found (ps qs : List ResponsePart) (u : UriComponents)
    (es0 : List (List TextEdit)) (st0 : Option TextEditGroupState)
    (d0 : Option Bool) (e : List TextEdit) (d : Option Bool)
    (h : ∀ p ∈ ps, isGroupFor p u = false) :
    mergeTextEdits (ps ++ .textEditGroup u es0 st0 d0 :: qs) u e d =
      ps ++ .textEditGroup u (es0 ++ [e]) st0 d :: qs := by
  induction ps with
  | nil => simp [mergeTextEdits, isGroupFor, pushBatch]
  | cons p ps ih =>
    have hp := h p (List.mem_cons_self p ps)
    have hrest : ∀ q ∈ ps, isGroupFor q u = false :=
      fun q hq => h q (List.mem_cons_of_mem _ hq)
    simp [mergeTextEdits, hp, ih hrest]

theorem firstUrisAux_append_one (f : TextEditFragment) :
    ∀ (fs : List TextEditFragment) (seen : List UriComponents),
    firstUrisAux seen (fs ++ [f]) =
      firstUrisAux seen fs ++
        (if f.uri ∈ seen ∨ f.uri ∈ fs.map TextEditFragment.uri then []
          else [f.uri]) := by
  intro fs
  induction fs with
  | nil =>
    intro seen
    by_cases hm : f.uri ∈ seen <;> simp [firstUrisAux, hm]
  | cons g gs ih =>
    intro seen
    by_cases hg : g.uri ∈ seen
    · rw [List.cons_append, firstUrisAux, if_pos hg, ih seen, firstUrisAux,
        if_pos hg]
      have hcond : (f.uri ∈ seen ∨ f.uri ∈ gs.map TextEditFragment.uri)
          ↔ (f.uri ∈ seen ∨ f.uri ∈ (g :: gs).map TextEditFragment.uri) := by
        simp only [List.map_cons, List.mem_cons]
        constructor
        · tauto
        · rintro (h | he | h)
          · exact Or.inl h
          · exact Or.inl (he ▸ hg)
          · exact Or.inr h
      rw [if_congr hcond rfl rfl]
    · rw [List.cons_append, firstUrisAux, if_neg hg, ih (g.uri :: seen),
        firstUrisAux, if_neg hg]
      have hcond : (f.uri ∈ g.uri :: seen ∨ f.uri ∈ gs.map TextEditFragment.uri)
          ↔ (f.uri ∈ seen ∨ f.uri ∈ (g :: gs).map TextEditFragment.uri) := by
        simp only [List.map_cons, List.mem_cons]
        tauto
      rw [if_congr hcond rfl rfl]
      simp

theorem mem_firstUrisAux :
    ∀ (fs : List TextEditFragment) (seen : List UriComponents)
      (u : UriComponents),
    u ∈ firstUrisAux seen fs ↔
      u ∉ seen ∧ u ∈ fs.map TextEditFragment.uri := by
  intro fs
  induction fs with
  | nil => intro seen u; simp [firstUrisAux]
  | cons g gs ih =>
    intro seen u
    by_cases hg : g.uri ∈ seen
    · rw [firstUrisAux, if_pos hg, ih seen u]
      simp only [List.map_cons, List.mem_cons]
      constructor
      · rintro ⟨a, b⟩; exact ⟨a, Or.inr b⟩
      · rintro ⟨a, b | b⟩
        · exact absurd (b ▸ hg) a
        · exact ⟨a, b⟩
    · rw [firstUrisAux, if_neg hg]
      simp only [List.mem_cons, ih (g.uri :: seen) u, List.map_cons]
      constructor
      · rintro (rfl | ⟨hns, hmem⟩)
        · exact ⟨hg, Or.inl rfl⟩
        · push_neg at hns
          exact ⟨hns.2, Or.inr hmem⟩
      · rintro ⟨hns, rfl | hmem⟩
        · exact Or.inl rfl
        · by_cases hu : u = g.uri
          · exact Or.inl hu
          · exact Or.inr ⟨by simp [List.mem_cons, hu, hns], hmem⟩

theorem nodup_firstUrisAux :
    ∀ (fs : List TextEditFragment) (seen : List UriComponents),
    (firstUrisAux seen fs).Nodup := by
  intro fs
  induction fs with
  | nil => intro seen; simp [firstUrisAux]
  | cons g gs ih =>
    intro seen
    by_cases hg : g.uri ∈ seen
    · rw [firstUrisAux, if_pos hg]; exact ih seen
    · rw [firstUrisAux, if_neg hg, List.nodup_cons]
      refine ⟨fun hmem => ?_, ih _⟩
      exact ((mem_firstUrisAux gs (g.uri :: seen) g.uri).mp hmem).1
        (List.mem_cons_self _ _)

theorem groupFor_append_ne (fs : List TextEditFragment) (f : TextEditFragment)
    (u : UriComponents) (h : u ≠ f.uri) :
    groupFor (fs ++ [f]) u = groupFor fs u := by
  have hne : ¬ (f.uri = u) := fun hh => h hh.symm
  have hfr : fragsFor u (fs ++ [f]) = fragsFor u fs := by
    simp [fragsFor, List.filter_append, hne]
  simp [groupFor, doneFor, hfr]

theorem groupFor_append_self (fs : List TextEditFragment)
    (f : TextEditFragment) :
    groupFor (fs ++ [f]) f.uri =
      .textEditGroup f.uri
        ((fragsFor f.uri fs).map TextEditFragment.edits ++ [f.edits]) none
        f.done := by
  have hfr : fragsFor f.uri (fs ++ [f]) = fragsFor f.uri fs ++ [f] := by
    simp [fragsFor, List.filter_append]
  simp [groupFor, hfr, doneFor, List.getLast?_concat, List.map_append]

/-- The accumulated parts of a pure stream of non-empty text-edit fragments
are exactly the per-uri buckets, one group per distinct uri in
first-occurrence order, with batches in arrival order. -/
theorem applyTextEditFragments_eq_buckets (frags : List TextEditFragment)
    (hne : ∀ f ∈ frags, f.edits ≠ []) :
    applyTextEditFragments [] frags = bucketParts frags := by
  induction frags using List.reverseRecOn with
  | nil => rfl
  | append_singleton fs f ih =>
    have hne' : ∀ g ∈ fs, g.edits ≠ [] := fun g hg => hne g (by simp [hg])
    have hf : f.edits ≠ [] := hne f (by simp)
    have hlen : 0 < f.edits.length := List.length_pos.mpr hf
    have hstep : applyTextEditFragments [] (fs ++ [f]) =
        updateContent (applyTextEditFragments [] fs)
          (.textEdit f.uri f.edits f.done) := by
      simp [applyTextEditFragments, List.foldl_append]
    rw [hstep, ih hne']
    show updateContent (bucketParts fs) (.textEdit f.uri f.edits f.done) =
      bucketParts (fs ++ [f])
    rw [updateContent, if_pos hlen]
    by_cases hmem : f.uri ∈ fs.map TextEditFragment.uri
    · -- a group for this uri already exists; the first (unique) one is updated
      have humem : f.uri ∈ firstUris fs :=
        (mem_firstUrisAux fs [] f.uri).mpr ⟨by simp, hmem⟩
      obtain ⟨us1, us2, hsplit⟩ := List.append_of_mem humem
      have hnd : (firstUris fs).Nodup := nodup_firstUrisAux fs []
      rw [hsplit] at hnd
      obtain ⟨hnd1, hnd2, hdisj⟩ := List.nodup_append.mp hnd
      have hnotin1 : f.uri ∉ us1 := fun hin =>
        hdisj hin (List.mem_cons_self _ _)
      have hg1 : ∀ p ∈ us1.map (groupFor fs), isGroupFor p f.uri = false := by
        intro p hp
        obtain ⟨u, hu, rfl⟩ := List.mem_map.mp hp
        have hune : ¬ (u = f.uri) := fun hh => hnotin1 (hh ▸ hu)
        simp [groupFor, isGroupFor, hune]
      have hbp : bucketParts fs =
          us1.map (groupFor fs) ++
            ResponsePart.textEditGroup f.uri
              ((fragsFor f.uri fs).map TextEditFragment.edits) none
              (doneFor f.uri fs) :: us2.map (groupFor fs) := by
        rw [bucketParts, hsplit]
        simp [List.map_append, groupFor]
      rw [hbp, mergeTextEdits_found _ _ _ _ _ _ _ _ hg1]
      have hfu : firstUris (fs ++ [f]) = firstUris fs := by
        simp [firstUris, firstUrisAux_append_one, hmem]
      rw [bucketParts, hfu, hsplit, List.map_append, List.map_cons]
      congr 1
      · refine List.map_congr_left fun u hu => ?_
        exact (groupFor_append_ne fs f u (fun hh => hnotin1 (hh ▸ hu))).symm
      · congr 1
        · rw [groupFor_append_self]
        · refine List.map_congr_left fun u hu => ?_
          have hn2 : f.uri ∉ us2 := (List.nodup_cons.mp hnd2).1
          exact (groupFor_append_ne fs f u (fun hh => hn2 (hh ▸ hu))).symm
    · -- no group for this uri yet; a fresh one is appended
      have hnog : ∀ p ∈ bucketParts fs, isGroupFor p f.uri = false := by
        intro p hp
        obtain ⟨u, hu, rfl⟩ := List.mem_map.mp hp
        have humem : u ∈ fs.map TextEditFragment.uri :=
          ((mem_firstUrisAux fs [] u).mp hu).2
        have hune : ¬ (u = f.uri) := fun hh => hmem (hh ▸ humem)
        simp [groupFor, isGroupFor, hune]
      rw [mergeTextEdits_not_found _ _ _ _ hnog]
      have hfu : firstUris (fs ++ [f]) = firstUris fs ++ [f.uri] := by
        simp [firstUris, firstUrisAux_append_one, hmem]
      have hempty : fragsFor f.uri fs = [] := by
        rw [fragsFor, List.filter_eq_nil_iff]
        intro g hg
        simp only [decide_eq_true_eq]
        exact fun hh => hmem (hh ▸ List.mem_map.mpr ⟨g, hg, rfl⟩)
      rw [bucketParts, bucketParts, hfu, List.map_append, List.map_singleton]
      congr 1
      · refine List.map_congr_left fun u hu => ?_
        have humem : u ∈ fs.map TextEditFragment.uri :=
          ((mem_firstUrisAux fs [] u).mp hu).2
        exact (groupFor_append_ne fs f u (fun hh => hmem (hh ▸ humem))).symm
      · rw [groupFor_append_self, hempty]
        simp

theorem emit_responseStreams (s : ProviderState) (a b : String)
    (k : OutputKind) : (emit s a b k).responseStreams = s.responseStreams := rfl

theorem loadingStep_responseStreams (s : ProviderState) (a b : String) :
    (loadingStep s a b).responseStreams = s.responseStreams := by
  unfold loadingStep
  by_cases h : mkStreamKey a b ∈ s.startedStreams <;> simp [h, emit]

theorem closeAndRemove_responseStreams (s : ProviderState) (a b : String) :
    (closeAndRemoveResponseStream s a b).responseStreams =
      removeStream s.responseStreams a b := by
  unfold closeAndRemoveResponseStream
  rcases h : lookupStream s.responseStreams a b with _ | v <;> rfl

theorem foldl_closeAndRemove_streams (sid : String) :
    ∀ (xs : List StreamEntry) (s : ProviderState),
    (xs.foldl
        (fun acc x => closeAndRemoveResponseStream acc sid x.exchangeId)
        s).responseStreams =
      s.responseStreams.filter
        (fun e => decide (∀ x ∈ xs, e.key ≠ mkStreamKey sid x.exchangeId)) := by
  intro xs
  induction xs with
  | nil => intro s; simp
  | cons x xs ih =>
    intro s
    rw [List.foldl_cons, ih, closeAndRemove_responseStreams, removeStream,
      List.filter_filter]
    apply List.filter_congr
    intro e _
    rw [← Bool.decide_and, decide_eq_decide]
    rw [List.forall_mem_cons]
    tauto

/-- After the terminal fan-out, no stream of the event's session remains. -/
theorem mem_fanout_ne (s : ProviderState) (sid : String) :
    ∀ e ∈ (fanoutClose s sid).responseStreams, e.sessionId ≠ sid := by
  intro e he heq
  rw [fanoutClose] at he
  rw [foldl_closeAndRemove_streams] at he
  obtain ⟨hmem, hpred⟩ := List.mem_filter.mp he
  exact of_decide_eq_true hpred e hmem (by rw [StreamEntry.key, heq])

theorem emit_startedStreams (s : ProviderState) (a b : String)
    (k : OutputKind) : (emit s a b k).startedStreams = s.startedStreams := rfl

theorem setThinking_outputs (s : ProviderState) (k t : String) :
    (setThinking s k t).outputs = s.outputs := rfl

theorem setThinking_startedStreams (s : ProviderState) (k t : String) :
    (setThinking s k t).startedStreams = s.startedStreams := rfl

theorem countLoading_emit (sid eid : String) (s : ProviderState) (a b : String)
    (k : OutputKind) (h : k ≠ .stageOut "Loading...") :
    countLoading sid eid (emit s a b k).outputs =
      countLoading sid eid s.outputs := by
  simp [countLoading, emit, List.filter_append, h]

theorem closeAndRemove_countLoading (sid eid : String) (s : ProviderState)
    (a b : String) :
    countLoading sid eid (closeAndRemoveResponseStream s a b).outputs =
      countLoading sid eid s.outputs := by
  unfold closeAndRemoveResponseStream
  rcases h : lookupStream s.responseStreams a b with _ | v
  · rfl
  · exact countLoading_emit sid eid s v.sessionId v.exchangeId .closeStream
      (by simp)

theorem closeAndRemove_startedStreams (s : ProviderState) (a b : String) :
    (closeAndRemoveResponseStream s a b).startedStreams = s.startedStreams := by
  unfold closeAndRemoveResponseStream
  rcases h : lookupStream s.responseStreams a b with _ | v <;> rfl

theorem fanout_countLoading (sid eid sidX : String) :
    ∀ (xs : List StreamEntry) (s : ProviderState),
    countLoading sid eid
        ((xs.foldl
          (fun acc x => closeAndRemoveResponseStream acc sidX x.exchangeId)
          s)).outputs =
      countLoading sid eid s.outputs := by
  intro xs
  induction xs with
  | nil => intro s; rfl
  | cons x xs ih =>
    intro s
    rw [List.foldl_cons, ih, closeAndRemove_countLoading]

theorem fanout_startedStreams (sidX : String) :
    ∀ (xs : List StreamEntry) (s : ProviderState),
    ((xs.foldl
        (fun acc x => closeAndRemoveResponseStream acc sidX x.exchangeId)
        s)).startedStreams = s.startedStreams := by
  intro xs
  induction xs with
  | nil => intro s; rfl
  | cons x xs ih =>
    intro s
    rw [List.foldl_cons, ih, closeAndRemove_startedStreams]

theorem fanoutClose_countLoading (sid eid sidX : String) (s : ProviderState) :
    countLoading sid eid (fanoutClose s sidX).outputs =
      countLoading sid eid s.outputs :=
  fanout_countLoading sid eid sidX s.responseStreams s

theorem fanoutClose_startedStreams (sidX : String) (s : ProviderState) :
    (fanoutClose s sidX).startedStreams = s.startedStreams :=
  fanout_startedStreams sidX s.responseStreams s

/-- The event-kind dispatch neither emits another `stage: Loading` output for
any pair nor touches the `startedStreams` seen-set. -/
theorem handleUIEvent_pres (sid eid : String) (s : ProviderState)
    (a b : String) (ev : UIEventKind) :
    countLoading sid eid (handleUIEvent s a b ev).1.outputs =
      countLoading sid eid s.outputs ∧
    (handleUIEvent s a b ev).1.startedStreams = s.startedStreams := by
  cases ev with
  | frameworkEvent fe =>
    cases fe with
    | openFile fp =>
      by_cases h : fp = "" <;>
        simp [handleUIEvent, h, countLoading_emit, emit_startedStreams]
    | toolThinking thinking =>
      by_cases h :
          thinking.drop (getThinking s (mkStreamKey a b)).length = "" <;>
        simp [handleUIEvent, h, countLoading_emit, emit_startedStreams,
          setThinking_outputs, setThinking_startedStreams]
    | toolParameterFound fieldName delta =>
      by_cases h1 : fieldName = "fs_file_path" ∨ fieldName = "directory_path"
      · simp [handleUIEvent, h1, countLoading_emit, emit_startedStreams]
      · by_cases h2 : fieldName = "instruction" ∨ fieldName = "result" ∨
            fieldName = "question"
        · simp [handleUIEvent, h1, h2, countLoading_emit, emit_startedStreams]
        · by_cases h3 : fieldName = "command"
          · simp [handleUIEvent, h1, h2, h3, countLoading_emit,
              emit_startedStreams]
          · by_cases h4 : fieldName = "regex_pattern"
            · simp [handleUIEvent, h1, h2, h3, h4, countLoading_emit,
                emit_startedStreams]
            · by_cases h5 : fieldName = "file_pattern"
              · simp [handleUIEvent, h1, h2, h3, h4, h5, countLoading_emit,
                  emit_startedStreams]
              · simp [handleUIEvent, h1, h2, h3, h4, h5]
    | toolUseDetected tu =>
      rcases tu with _ | t
      · simp [handleUIEvent]
      · cases t with
        | attemptCompletion =>
          simp [handleUIEvent, fanoutClose_countLoading,
            fanoutClose_startedStreams, countLoading_emit,
            emit_startedStreams]
        | openFileTool fp =>
          by_cases h : fp = "" <;>
            simp [handleUIEvent, h, countLoading_emit, emit_startedStreams]
        | otherTool => simp [handleUIEvent]
    | toolTypeError msg =>
      simp [handleUIEvent, fanoutClose_countLoading, fanoutClose_startedStreams,
        countLoading_emit, emit_startedStreams]
  | symbolEvent => simp [handleUIEvent]
  | symbolEventSubStep sub =>
    cases sub with
    | goToDefinition => simp [handleUIEvent]
    | editStep hasIdentifier delta =>
      cases hasIdentifier with
      | false => simp [handleUIEvent]
      | true =>
        by_cases h : delta = "" <;>
          simp [handleUIEvent, h, countLoading_emit, emit_startedStreams]
    | probe => simp [handleUIEvent]
  | requestEvent => simp [handleUIEvent]
  | editRequestFinished => simp [handleUIEvent]
  | chatEvent delta =>
    rcases delta with _ | d <;>
      simp [handleUIEvent, countLoading_emit, emit_startedStreams]
  | planEvent t d =>
    rcases t with _ | ⟨i1, t1⟩ <;> rcases d with _ | ⟨i2, d2⟩ <;>
      simp [handleUIEvent, countLoading_emit, emit_startedStreams]
  | exchangeEvent ee =>
    cases ee with
    | plansExchangeState st =>
      by_cases h1 : st = "Loading"
      · simp [handleUIEvent, h1, countLoading_emit, emit_startedStreams]
      · by_cases h2 : st = "Cancelled"
        · simp [handleUIEvent, h1, h2, countLoading_emit, emit_startedStreams]
        · by_cases h3 : st = "MarkedComplete"
          · simp [handleUIEvent, h1, h2, h3, countLoading_emit,
              emit_startedStreams, closeAndRemove_countLoading,
              closeAndRemove_startedStreams]
          · by_cases h4 : st = "Accepted" <;>
              simp [handleUIEvent, h1, h2, h3, h4, countLoading_emit,
                emit_startedStreams]
    | editsExchangeState st =>
      by_cases h1 : st = "Loading"
      · simp [handleUIEvent, h1, countLoading_emit, emit_startedStreams]
      · by_cases h2 : st = "Cancelled"
        · simp [handleUIEvent, h1, h2, countLoading_emit, emit_startedStreams]
        · by_cases h3 : st = "MarkedComplete" <;>
            simp [handleUIEvent, h1, h2, h3, countLoading_emit,
              emit_startedStreams, closeAndRemove_countLoading,
              closeAndRemove_startedStreams]
    | executionState st =>
      by_cases h1 : st = "Inference"
      · simp [handleUIEvent, h1, countLoading_emit, emit_startedStreams]
      · by_cases h2 : st = "InReview"
        · simp [handleUIEvent, h1, h2, countLoading_emit, emit_startedStreams]
        · by_cases h3 : st = "Cancelled" <;>
            simp [handleUIEvent, h1, h2, h3, countLoading_emit,
              emit_startedStreams]
    | finishedExchange =>
      simp [handleUIEvent, countLoading_emit, emit_startedStreams,
        closeAndRemove_countLoading, closeAndRemove_startedStreams]

theorem loadingStep_same_pair (s : ProviderState) (sid eid : String)
    (hk : mkStreamKey sid eid ∉ s.startedStreams) :
    countLoading sid eid (loadingStep s sid eid).outputs =
      countLoading sid eid s.outputs + 1 ∧
    mkStreamKey sid eid ∈ (loadingStep s sid eid).startedStreams := by
  unfold loadingStep
  simp [hk, emit, countLoading, List.filter_append]

theorem loadingStep_other_pair (s : ProviderState) (sid eid a b : String)
    (hp : ¬ (a = sid ∧ b = eid)) :
    countLoading sid eid (loadingStep s a b).outputs =
      countLoading sid eid s.outputs := by
  unfold loadingStep
  by_cases hk : mkStreamKey a b ∈ s.startedStreams
  · simp [hk]
  · simp [hk, emit, countLoading, List.filter_append]
    tauto

theorem loadingStep_startedStreams_mono (s : ProviderState) (a b : String)
    (k : String) (h : k ∈ s.startedStreams) :
    k ∈ (loadingStep s a b).startedStreams := by
  unfold loadingStep
  by_cases hk : mkStreamKey a b ∈ s.startedStreams
  · simpa [hk] using h
  · simp [hk, emit]
    exact Or.inl h

theorem loadingStep_inv (sid eid a b : String) (s : ProviderState)
    (h : LoadingInv sid eid s) : LoadingInv sid eid (loadingStep s a b) := by
  by_cases hp : a = sid ∧ b = eid
  · obtain ⟨rfl, rfl⟩ := hp
    by_cases hk : mkStreamKey a b ∈ s.startedStreams
    · unfold loadingStep
      simpa [hk] using h
    · obtain ⟨hc, hm⟩ := loadingStep_same_pair s a b hk
      have h0 : countLoading a b s.outputs = 0 := by
        rcases Nat.eq_or_lt_of_le h.1 with h1 | h1
        · exact absurd (h.2 h1) hk
        · omega
      constructor
      · rw [hc, h0]
      · intro _
        exact hm
  · have hc := loadingStep_other_pair s sid eid a b hp
    constructor
    · rw [hc]; exact h.1
    · intro h1
      rw [hc] at h1
      exact loadingStep_startedStreams_mono s a b _ (h.2 h1)

theorem processOne_inv (sid eid : String) (s : ProviderState)
    (e : SideCarAgentEvent) (h : LoadingInv sid eid s) :
    LoadingInv sid eid (processOneEvent s e).1 := by
  cases e with
  | keepAlive => exact h
  | sessionStarted => exact h
  | doneSentinel => exact h
  | main a b ev =>
    rcases hl : lookupStream s.responseStreams a b with _ | v
    · simpa [processOneEvent, hl] using h
    · simp only [processOneEvent, hl]
      obtain ⟨hc, hs⟩ := handleUIEvent_pres sid eid (loadingStep s a b) a b ev
      have hls := loadingStep_inv sid eid a b s h
      constructor
      · rw [hc]; exact hls.1
      · intro h1
        rw [hc] at h1
        rw [hs]
        exact hls.2 h1

theorem report_inv (sid eid : String) :
    ∀ (events : List SideCarAgentEvent) (s : ProviderState),
    LoadingInv sid eid s →
    LoadingInv sid eid (reportAgentEventsToChat s events) := by
  intro events
  induction events with
  | nil => intro s h; exact h
  | cons e es ih =>
    intro s h
    rw [reportAgentEventsToChat]
    by_cases hr : (processOneEvent s e).2 = true
    · simpa [hr] using processOne_inv sid eid s e h
    · simp only [Bool.not_eq_true] at hr
      simpa [hr] using ih _ (processOne_inv sid eid s e h)

theorem processOne_startedZero (sid eid : String) (s : ProviderState)
    (e : SideCarAgentEvent) (hmem : mkStreamKey sid eid ∈ s.startedStreams)
    (h0 : countLoading sid eid s.outputs = 0) :
    mkStreamKey sid eid ∈ (processOneEvent s e).1.startedStreams ∧
    countLoading sid eid (processOneEvent s e).1.outputs = 0 := by
  cases e with
  | keepAlive => exact ⟨hmem, h0⟩
  | sessionStarted => exact ⟨hmem, h0⟩
  | doneSentinel => exact ⟨hmem, h0⟩
  | main a b ev =>
    rcases hl : lookupStream s.responseStreams a b with _ | v
    · simp only [processOneEvent, hl]
      exact ⟨hmem, h0⟩
    · simp only [processOneEvent, hl]
      obtain ⟨hc, hs⟩ := handleUIEvent_pres sid eid (loadingStep s a b) a b ev
      refine ⟨hs ▸ loadingStep_startedStreams_mono s a b _ hmem, ?_⟩
      rw [hc]
      by_cases hp : a = sid ∧ b = eid
      · obtain ⟨rfl, rfl⟩ := hp
        unfold loadingStep
        simp [hmem, h0]
      · rw [loadingStep_other_pair s sid eid a b hp, h0]

theorem report_startedZero (sid eid : String) :
    ∀ (events : List SideCarAgentEvent) (s : ProviderState),
    mkStreamKey sid eid ∈ s.startedStreams →
    countLoading sid eid s.outputs = 0 →
    countLoading sid eid (reportAgentEventsToChat s events).outputs = 0 := by
  intro events
  induction events with
  | nil => intro s _ h0; exact h0
  | cons e es ih =>
    intro s hmem h0
    rw [reportAgentEventsToChat]
    obtain ⟨hmem', h0'⟩ := processOne_startedZero sid eid s e hmem h0
    by_cases hr : (processOneEvent s e).2 = true
    · simpa [hr] using h0'
    · simp only [Bool.not_eq_true] at hr
      simpa [hr] using ih _ hmem' h0'

theorem nodup_pair_eq {α : Type} (us : List α) (A B : α) (hAB : A ≠ B)
    (hnd : us.Nodup) (hsub : ∀ u ∈ us, u = A ∨ u = B) (hA : A ∈ us)
    (hB : B ∈ us) : us = [A, B] ∨ us = [B, A] := by
  obtain _ | ⟨u, _ | ⟨v, rest⟩⟩ := us
  · cases hA
  · exact absurd ((List.mem_singleton.mp hA).trans
      (List.mem_singleton.mp hB).symm) hAB
  · have huv : u ≠ v := by
      intro h
      exact (List.nodup_cons.mp hnd).1 (h ▸ List.mem_cons_self v rest)
    have hu := hsub u (List.mem_cons_self _ _)
    have hv := hsub v (List.mem_cons_of_mem _ (List.mem_cons_self _ _))
    have hrest : rest = [] := by
      cases rest with
      | nil => rfl
      | cons w ws =>
        exfalso
        have hw := hsub w (by simp)
        have hndu : u ∉ v :: w :: ws := (List.nodup_cons.mp hnd).1
        have hndv : v ∉ w :: ws :=
          (List.nodup_cons.mp (List.nodup_cons.mp hnd).2).1
        rcases hu with hu' | hu' <;> rcases hv with hv' | hv'
        · exact huv (hu'.trans hv'.symm)
        · rcases hw with hw' | hw'
          · exact hndu (by
              rw [hu', ← hw']
              exact List.mem_cons_of_mem _ (List.mem_cons_self _ _))
          · exact hndv (by rw [hv', ← hw']; exact List.mem_cons_self _ _)
        · rcases hw with hw' | hw'
          · exact hndv (by rw [hv', ← hw']; exact List.mem_cons_self _ _)
          · exact hndu (by
              rw [hu', ← hw']
              exact List.mem_cons_of_mem _ (List.mem_cons_self _ _))
        · exact huv (hu'.trans hv'.symm)
    subst hrest
    rcases hu with hu' | hu'
    · have hv' : v = B := by
        rcases hv with hv' | hv'
        · exact absurd (hu'.trans hv'.symm) huv
        · exact hv'
      exact Or.inl (by rw [hu', hv'])
    · have hv' : v = A := by
        rcases hv with hv' | hv'
        · exact hv'
        · exact absurd (hu'.trans hv'.symm) huv
      exact Or.inr (by rw [hu', hv'])

/-! ## Claims -/

/-- C3 counterexample: with 3 open streams in session `s`, a single
`FinishedExchange` terminal event for exchange `e1` closes and removes only
the `(s, e1)` stream; the session's other two streams remain open,
contradicting the claim that any terminal kind ends every stream of the
session. -/
theorem c3_counterexample_finished_exchange_no_fanout :
    (reportAgentEventsToChat c3state [c3event]).responseStreams =
      [{ sessionId := "s", exchangeId := "e2" },
        { sessionId := "s", exchangeId := "e3" }] ∧
    ((reportAgentEventsToChat c3state [c3event]).responseStreams.filter
        (fun e => decide (e.sessionId = "s"))).length = 2 := by
  refine ⟨by decide, by decide⟩

/-- C3 amended: only the completion tool use (`AttemptCompletion`) and the
tool-type-error terminal events fan out, closing and removing every open
response stream of the event's session (and then stop consuming the stream);
`FinishedExchange` and `MarkedComplete` (plans or edits) close and remove
only the stream of the (session, exchange) pair that produced the event,
leaving the session's other open streams in place. -/
theorem c3_amended_terminal_fanout (s : ProviderState) (sid eid msg : String)
    (hopen : (lookupStream s.responseStreams sid eid).isSome = true) :
    (∀ e ∈ (processOneEvent s (.main sid eid (.frameworkEvent
        (.toolUseDetected (some .attemptCompletion))))).1.responseStreams,
      e.sessionId ≠ sid) ∧
    (processOneEvent s (.main sid eid (.frameworkEvent
        (.toolUseDetected (some .attemptCompletion))))).2 = true ∧
    (∀ e ∈ (processOneEvent s (.main sid eid (.frameworkEvent
        (.toolTypeError msg)))).1.responseStreams, e.sessionId ≠ sid) ∧
    (processOneEvent s (.main sid eid (.frameworkEvent
        (.toolTypeError msg)))).2 = true ∧
    (processOneEvent s (.main sid eid (.exchangeEvent
        .finishedExchange))).1.responseStreams =
      removeStream s.responseStreams sid eid ∧
    (processOneEvent s (.main sid eid (.exchangeEvent
        .finishedExchange))).2 = false ∧
    (processOneEvent s (.main sid eid (.exchangeEvent
        (.plansExchangeState "MarkedComplete")))).1.responseStreams =
      removeStream s.responseStreams sid eid ∧
    (processOneEvent s (.main sid eid (.exchangeEvent
        (.editsExchangeState "MarkedComplete")))).1.responseStreams =
      removeStream s.responseStreams sid eid := by
  obtain ⟨v, hv⟩ := Option.isSome_iff_exists.mp hopen
  refine ⟨?_, ?_, ?_, ?_, ?_, ?_, ?_, ?_⟩
  · intro e he
    simp only [processOneEvent, hv, handleUIEvent] at he
    exact mem_fanout_ne _ sid e he
  · simp only [processOneEvent, hv, handleUIEvent]
  · intro e he
    simp only [processOneEvent, hv, handleUIEvent] at he
    exact mem_fanout_ne _ sid e he
  · simp only [processOneEvent, hv, handleUIEvent]
  · simp only [processOneEvent, hv, handleUIEvent]
    rw [closeAndRemove_responseStreams, emit_responseStreams,
      loadingStep_responseStreams]
  · simp only [processOneEvent, hv, handleUIEvent]
  · simp only [processOneEvent, hv, handleUIEvent]
    rw [if_neg (by decide), if_neg (by decide), if_pos (by decide),
      closeAndRemove_responseStreams, emit_responseStreams,
      loadingStep_responseStreams]
  · simp only [processOneEvent, hv, handleUIEvent]
    rw [if_neg (by decide), if_neg (by decide), if_pos (by decide),
      closeAndRemove_responseStreams, emit_responseStreams,
      loadingStep_responseStreams]

/-- C3 witness: the amended behaviour on the concrete 3-stream session. -/
theorem c3_amended_terminal_fanout_witness :
    (processOneEvent c3state (.main "s" "e1" (.exchangeEvent
        .finishedExchange))).1.responseStreams =
      removeStream c3state.responseStreams "s" "e1" ∧
    (∀ e ∈ (processOneEvent c3state (.main "s" "e1" (.frameworkEvent
        (.toolUseDetected (some .attemptCompletion))))).1.responseStreams,
      e.sessionId ≠ "s") :=
  ⟨(c3_amended_terminal_fanout c3state "s" "e1" "err"
      (by decide)).2.2.2.2.1,
   (c3_amended_terminal_fanout c3state "s" "e1" "err" (by decide)).1⟩

/-- C4: for two consecutive markdownContent fragments whose isTrusted,
supportHtml, supportThemeIcons and baseUri attributes are pairwise equal,
`Response.updateContent` produces exactly one markdown content part whose
text is the concatenation of the two fragments' texts in arrival order; when
any of those attributes differ, the second fragment is pushed as a new
sibling part instead (and a fragment arriving when the last part is not
markdown is likewise pushed, which is the `hlast` starting point). -/
theorem c4_markdown_merge (parts : List ResponsePart) (md1 md2 : MarkdownString)
    (hlast : ∀ c, parts.getLast? ≠ some (.markdownContent c)) :
    (markdownAttrsEqual md1 md2 →
      updateContent (updateContent parts (.markdownContent md1))
          (.markdownContent md2) =
        parts ++ [.markdownContent (appendMarkdownString md1 md2)]) ∧
    (¬ markdownAttrsEqual md1 md2 →
      updateContent (updateContent parts (.markdownContent md1))
          (.markdownContent md2) =
        parts ++ [.markdownContent md1, .markdownContent md2]) := by
  have h1 : updateContent parts (.markdownContent md1) =
      parts ++ [.markdownContent md1] :=
    updateContent_markdown_push parts md1 hlast
  constructor
  · intro hattrs
    rw [h1, updateContent_markdown_merge _ md1 md2 (List.getLast?_concat _)
      ((canMergeMarkdownStrings_iff md1 md2).mpr hattrs), List.dropLast_concat]
  · intro hattrs
    have hm : canMergeMarkdownStrings md1 md2 = false := by
      rcases hb : canMergeMarkdownStrings md1 md2 with _ | _
      · rfl
      · exact absurd ((canMergeMarkdownStrings_iff md1 md2).mp hb) hattrs
    rw [h1, updateContent_markdown_nomerge _ md1 md2 (List.getLast?_concat _) hm]
    simp

/-- C4 witness: the scenario of §8.7 of the specification, evaluated. -/
theorem c4_markdown_merge_witness :
    markdownAttrsEqual c4md1 c4md2 ∧
    updateContent (updateContent [] (.markdownContent c4md1))
        (.markdownContent c4md2) =
      [] ++ [.markdownContent (appendMarkdownString c4md1 c4md2)] ∧
    appendMarkdownString c4md1 c4md2 = { value := "Let me look at this." } :=
  ⟨by decide,
   (c4_markdown_merge [] c4md1 c4md2 (fun c => by simp)).1 (by decide),
   by decide⟩

/-- C5: for any interleaving of non-empty text-edit fragments over two
distinct uris (with each uri hit at least once), the accumulated parts are
exactly two text-edit-group parts, one per uri, whose edit batch lists are
exactly the batches addressed to that uri in arrival order, with the last
arriving fragment's `done` flag; bucketing is by uri equality, not
adjacency. -/
theorem c5_edit_bucketing (A B : UriComponents) (hAB : A ≠ B)
    (frags : List TextEditFragment)
    (hne : ∀ f ∈ frags, f.edits ≠ [])
    (huri : ∀ f ∈ frags, f.uri = A ∨ f.uri = B)
    (hA : ∃ f ∈ frags, f.uri = A) (hB : ∃ f ∈ frags, f.uri = B) :
    applyTextEditFragments [] frags =
      [.textEditGroup A ((fragsFor A frags).map TextEditFragment.edits) none
          (doneFor A frags),
        .textEditGroup B ((fragsFor B frags).map TextEditFragment.edits) none
          (doneFor B frags)] ∨
    applyTextEditFragments [] frags =
      [.textEditGroup B ((fragsFor B frags).map TextEditFragment.edits) none
          (doneFor B frags),
        .textEditGroup A ((fragsFor A frags).map TextEditFragment.edits) none
          (doneFor A frags)] := by
  rw [applyTextEditFragments_eq_buckets frags hne]
  have hAmem : A ∈ firstUris frags := by
    obtain ⟨f, hf, hfu⟩ := hA
    exact (mem_firstUrisAux frags [] A).mpr
      ⟨by simp, List.mem_map.mpr ⟨f, hf, hfu⟩⟩
  have hBmem : B ∈ firstUris frags := by
    obtain ⟨f, hf, hfu⟩ := hB
    exact (mem_firstUrisAux frags [] B).mpr
      ⟨by simp, List.mem_map.mpr ⟨f, hf, hfu⟩⟩
  have hsub : ∀ u ∈ firstUris frags, u = A ∨ u = B := by
    intro u hu
    obtain ⟨f, hf, hfu⟩ :=
      List.mem_map.mp ((mem_firstUrisAux frags [] u).mp hu).2
    exact hfu ▸ huri f hf
  rcases nodup_pair_eq (firstUris frags) A B hAB (nodup_firstUrisAux frags [])
      hsub hAmem hBmem with h | h
  · exact Or.inl (by rw [bucketParts, h]; simp [groupFor])
  · exact Or.inr (by rw [bucketParts, h]; simp [groupFor])

/-- C5 witness: three interleaved fragments over two uris bucket into the
two predicted groups. -/
theorem c5_edit_bucketing_witness :
    applyTextEditFragments [] c5frags =
      [.textEditGroup c5uriA
          ((fragsFor c5uriA c5frags).map TextEditFragment.edits) none
          (doneFor c5uriA c5frags),
        .textEditGroup c5uriB
          ((fragsFor c5uriB c5frags).map TextEditFragment.edits) none
          (doneFor c5uriB c5frags)] ∨
    applyTextEditFragments [] c5frags =
      [.textEditGroup c5uriB
          ((fragsFor c5uriB c5frags).map TextEditFragment.edits) none
          (doneFor c5uriB c5frags),
        .textEditGroup c5uriA
          ((fragsFor c5uriA c5frags).map TextEditFragment.edits) none
          (doneFor c5uriA c5frags)] :=
  c5_edit_bucketing c5uriA c5uriB (by decide) c5frags (by decide) (by decide)
    (by decide) (by decide)

/-- C6: `completeResponse` marks the response complete and sets the
last-exchange-complete context key; the content parts are cleared exactly
when the result carries the redacted-error flag, and are untouched
otherwise. -/
theorem c6_complete_response (m : ChatModelState) (r : ChatResponseModel) :
    (completeResponse m r).2.isComplete = true ∧
    (completeResponse m r).1.lastExchangeComplete = true ∧
    (responseIsRedactedFlag r = true → (completeResponse m r).2.parts = []) ∧
    (responseIsRedactedFlag r = false → (completeResponse m r).2.parts = r.parts) := by
  unfold completeResponse ChatResponseModel.complete
  by_cases h : responseIsRedactedFlag r = true <;> simp_all

/-- C6 witness: a redacted response is cleared, an ordinary one keeps its
parts, and both are completed with the context key set. -/
theorem c6_complete_response_witness :
    (completeResponse {} c6redacted).2.parts = [] ∧
    (completeResponse {} c6plain).2.parts = c6plain.parts ∧
    (completeResponse {} c6plain).2.isComplete = true ∧
    (completeResponse {} c6plain).1.lastExchangeComplete = true :=
  ⟨(c6_complete_response {} c6redacted).2.2.1 (by decide),
   (c6_complete_response {} c6plain).2.2.2 (by decide),
   (c6_complete_response {} c6plain).1,
   (c6_complete_response {} c6plain).2.1⟩

/-- C7: `addRequest` appends exactly one request followed by one empty,
not-complete response at the end of the exchange list, fires a single
`addRequest` change event carrying the new request, clears the
last-exchange-complete context key, and returns the new request; the
pre-existing exchanges are untouched. -/
theorem c7_add_request (m : ChatModelState) (message : ParsedChatRequest)
    (variableData : VariableData) (attempt : Nat) (chatAgent : Option AgentData)
    (slashCommand confirmation locationData : Option String)
    (attachments : Option (List VariableEntry)) (isCompleteAdded : Bool)
    (now : Nat) :
    ∃ resp : ChatResponseModel,
      (addRequest m message variableData attempt chatAgent slashCommand
          confirmation locationData attachments isCompleteAdded now).1.exchanges =
        m.exchanges ++
          [.request (addRequest m message variableData attempt chatAgent
              slashCommand confirmation locationData attachments
              isCompleteAdded now).2, .response resp] ∧
      resp.parts = [] ∧
      resp.isComplete = false ∧
      (addRequest m message variableData attempt chatAgent slashCommand
          confirmation locationData attachments isCompleteAdded now).1.events =
        m.events ++
          [.addRequest (addRequest m message variableData attempt chatAgent
              slashCommand confirmation locationData attachments
              isCompleteAdded now).2] ∧
      (addRequest m message variableData attempt chatAgent slashCommand
          confirmation locationData attachments isCompleteAdded
          now).1.lastExchangeComplete = false ∧
      (addRequest m message variableData attempt chatAgent slashCommand
          confirmation locationData attachments isCompleteAdded now).2.message =
        message ∧
      (addRequest m message variableData attempt chatAgent slashCommand
          confirmation locationData attachments isCompleteAdded now).2.attempt =
        attempt :=
  ⟨emptyResponseModel (mkResponseId m.nextResponseId) chatAgent slashCommand
      isCompleteAdded,
   rfl, rfl, rfl, rfl, rfl, rfl, rfl⟩

/-- C8: over any event sequence, a `stage: Loading...` transition is emitted
at most once per (session id, exchange id) pair; once the pair is in the
`startedStreams` seen-set no further Loading transition is ever emitted for
it; and the first event routed to the pair's open response stream (pair not
yet started) emits exactly one Loading transition, whatever its kind. -/
theorem c8_loading_once (sid eid : String) (s0 : ProviderState)
    (events : List SideCarAgentEvent)
    (h0 : countLoading sid eid s0.outputs = 0) :
    countLoading sid eid (reportAgentEventsToChat s0 events).outputs ≤ 1 ∧
    (mkStreamKey sid eid ∈ s0.startedStreams →
      countLoading sid eid (reportAgentEventsToChat s0 events).outputs = 0) ∧
    (∀ ev : UIEventKind,
      (lookupStream s0.responseStreams sid eid).isSome = true →
      mkStreamKey sid eid ∉ s0.startedStreams →
      countLoading sid eid
          (processOneEvent s0 (.main sid eid ev)).1.outputs = 1) := by
  have hinv : LoadingInv sid eid s0 := by
    constructor
    · rw [h0]; exact Nat.zero_le 1
    · intro h1
      rw [h0] at h1
      exact absurd h1 (by decide)
  refine ⟨(report_inv sid eid events s0 hinv).1,
    fun hmem => report_startedZero sid eid events s0 hmem h0, ?_⟩
  intro ev hopen hnmem
  obtain ⟨v, hv⟩ := Option.isSome_iff_exists.mp hopen
  simp only [processOneEvent, hv]
  obtain ⟨hc, _⟩ := handleUIEvent_pres sid eid (loadingStep s0 sid eid) sid eid ev
  rw [hc, (loadingStep_same_pair s0 sid eid hnmem).1, h0]

/-- C8 witness: with one open stream and two chat events for the pair, the
Loading transition is emitted exactly once over the run, and the first
routed event alone already accounts for it. -/
theorem c8_loading_once_witness :
    countLoading "s" "e1"
        (reportAgentEventsToChat c8state c8events).outputs ≤ 1 ∧
    countLoading "s" "e1"
        (processOneEvent c8state
          (.main "s" "e1" (.chatEvent (some "hi")))).1.outputs = 1 :=
  ⟨(c8_loading_once "s" "e1" c8state c8events (by decide)).1,
   (c8_loading_once "s" "e1" c8state c8events (by decide)).2.2
     (.chatEvent (some "hi")) (by decide) (by decide)⟩

/-- C9: `disableRequests` sets `shouldBeRemovedOnSend` to membership in the
given batch for every exchange — in particular it resets the flag to false
for exchanges outside the batch — keeps the exchange list's membership and
order intact, and fires exactly one `setHidden` event. -/
theorem c9_disable_requests (m : ChatModelState) (ids : List String) :
    (disableRequests m ids).exchanges.length = m.exchanges.length ∧
    (∀ i : Nat, (disableRequests m ids).exchanges[i]? =
      (m.exchanges[i]?).map
        (fun e => setShouldBeRemovedOnSend e (decide (exchangeId e ∈ ids)))) ∧
    (∀ i : Nat, ∀ e, m.exchanges[i]? = some e → exchangeId e ∉ ids →
      (disableRequests m ids).exchanges[i]? =
        some (setShouldBeRemovedOnSend e false)) ∧
    (disableRequests m ids).events = m.events ++ [.setHidden ids] := by
  refine ⟨by simp [disableRequests], fun i => ?_, fun i e he hne => ?_, rfl⟩
  · simp [disableRequests, List.getElem?_map]
  · simp [disableRequests, List.getElem?_map, he, hne]

/-- C9 witness: hiding only `request_1` un-hides the previously hidden
`request_0`. -/
theorem c9_disable_requests_witness :
    (disableRequests c9m ["request_1"]).exchanges[0]? =
      some (setShouldBeRemovedOnSend c9req0 false) ∧
    (disableRequests c9m ["request_1"]).events =
      c9m.events ++ [.setHidden ["request_1"]] :=
  ⟨(c9_disable_requests c9m ["request_1"]).2.2.1 0 c9req0 (by decide) (by decide),
   (c9_disable_requests c9m ["request_1"]).2.2.2⟩

/-- C10: `removeExchange` with an id that matches no exchange is a complete
no-op (no event, no splice, no disposal); with a matching id it fires the
`removeExchange` event carrying the found exchange's id, splices that
exchange out, and disposes it only when it is a response. -/
theorem c10_remove_exchange (m : ChatModelState) (id : String)
    (reason : ChatExchangeRemovalReason) :
    ((∀ e ∈ m.exchanges, exchangeId e ≠ id) → removeExchange m id reason = m) ∧
    (∀ i : Nat,
      m.exchanges.findIdx? (fun e => decide (exchangeId e = id)) = some i →
      ∃ e, m.exchanges[i]? = some e ∧
        (removeExchange m id reason).exchanges = m.exchanges.eraseIdx i ∧
        (removeExchange m id reason).events =
          m.events ++ [.removeExchange (exchangeId e) reason] ∧
        (removeExchange m id reason).disposed = m.disposed ++
          (match e with
            | .response r => [r.id]
            | .request _ => [])) := by
  constructor
  · intro h
    have hidx : m.exchanges.findIdx? (fun e => decide (exchangeId e = id)) = none := by
      rw [List.findIdx?_eq_none_iff]
      intro e he
      simp [h e he]
    unfold removeExchange
    rw [hidx]
  · intro i hidx
    have hlt : i < m.exchanges.length :=
      (List.findIdx?_eq_some_iff_findIdx_eq.mp hidx).1
    have hget : m.exchanges[i]? = some (m.exchanges.get ⟨i, hlt⟩) := by
      simp [List.getElem?_eq_getElem hlt]
    refine ⟨m.exchanges.get ⟨i, hlt⟩, hget, ?_, ?_, ?_⟩ <;>
      simp [removeExchange, hidx, hget]

/-- C1: the round-trip fails on the code.  Serializing the scenario session
with `toExport`/`toJSON` and feeding the result back through `_deserialize`
yields the empty exchange list, not an equivalent three-element one: the
`raw.type === 'request'` branch of `_deserialize` constructs the request but
never returns it, so the map callback falls through to
`throw new Error('Unknown exchange')`, the surrounding catch logs, and every
exchange is discarded. -/
theorem c1_roundtrip_drops_all_exchanges :
    c1exchanges.length = 3 ∧
    c1parts = [.markdownContent { value := "Let me look at this." },
      .textEditGroup c1uri [[c1edit]] none (some true)] ∧
    deserializeExchanges (some (toExportExchanges c1exchanges)) = [] := by
  refine ⟨rfl, by decide, by decide⟩

/-- C2 counterexample: a persisted list with one well-formed response and one
unrecognized exchange.  The claim predicts that only the unrecognized
exchange is dropped and the well-formed one survives (a one-element result);
the code instead returns the empty list, discarding the well-formed exchange
too. -/
theorem c2_counterexample_drops_wellformed :
    (deserializeExchange c2goodRaw).isOk = true ∧
    (deserializeExchange c2unknownRaw).isOk = false ∧
    deserializeExchanges (some [c2goodRaw, c2unknownRaw]) = [] ∧
    (deserializeExchanges (some [c2goodRaw, c2unknownRaw])).length ≠ 1 := by
  refine ⟨rfl, rfl, by decide, by decide⟩

theorem mapOrFail_error (raws : List RawExchange)
    (h : ∃ r ∈ raws, ∃ msg, deserializeExchange r = .error msg) :
    ∃ e, mapOrFail raws = .error e := by
  induction raws with
  | nil => simp at h
  | cons a l ih =>
    obtain ⟨r, hr, msg, herr⟩ := h
    rcases List.mem_cons.mp hr with rfl | hmem
    · exact ⟨msg, by simp [mapOrFail, herr]⟩
    · rcases hda : deserializeExchange a with e' | x
      · exact ⟨e', by simp [mapOrFail, hda]⟩
      · obtain ⟨e, he⟩ := ih ⟨r, hmem, msg, herr⟩
        exact ⟨e, by simp [mapOrFail, hda, he]⟩

/-- C2 amended: when any persisted exchange is unrecognized (the map callback
throws), `_deserialize` catches the error, logs it, and returns the empty
exchange list — discarding every exchange, not only the malformed one; it
never throws out of the entry point (the embedded `deserializeExchanges` is
total). -/
theorem c2_amended_unknown_drops_everything (raws : List RawExchange)
    (h : ∃ r ∈ raws, ∃ msg, deserializeExchange r = .error msg) :
    deserializeExchanges (some raws) = [] := by
  obtain ⟨e, hmap⟩ := mapOrFail_error raws h
  simp [deserializeExchanges, hmap]

/-- C2 witness: the amended behaviour at the concrete two-element list. -/
theorem c2_amended_witness :
    deserializeExchanges (some [c2goodRaw, c2unknownRaw]) = [] :=
  c2_amended_unknown_drops_everything [c2goodRaw, c2unknownRaw]
    ⟨c2unknownRaw, by decide, "Unknown exchange", rfl⟩

/-- C10 witness: removing a missing id is a no-op; removing `response_5`
splices index 1 out and disposes it. -/
theorem c10_remove_exchange_witness :
    removeExchange c10m "nope" .removal = c10m ∧
    (removeExchange c10m "response_5" .removal).exchanges =
      c10m.exchanges.eraseIdx 1 ∧
    (removeExchange c10m "response_5" .removal).disposed =
      c10m.disposed ++ ["response_5"] := by
  refine ⟨(c10_remove_exchange c10m "nope" .removal).1 (by decide), ?_⟩
  obtain ⟨e, he, h1, h2, h3⟩ :=
    (c10_remove_exchange c10m "response_5" .removal).2 1 (by decide)
  have he' : e = c10resp := by
    have hx : c10m.exchanges[1]? = some c10resp := by decide
    exact Option.some_injective _ (he.symm.trans hx)
  subst he'
  exact ⟨h1, h3⟩

end Aide
